import Mathlib

/-!
Verification of the rag-doc-analyzer document analysis system.

This file gives a shallow embedding of the decision-making components of the
repository (clause extraction, multi-hop chain verdicts, audit trail, query
validation, consistency scoring and the cache manager) and proves properties
of the embedded operations.  Python floats are modelled by exact rationals,
`datetime` instants by integers counted in seconds, and Python dictionaries by
association lists that keep insertion order, matching CPython semantics.
-/

namespace RagDoc

/-- Python substring test `needle in hay` over character lists. -/
def sub_of (needle : List Char) : List Char → Bool
  | [] => needle.isEmpty
  | c :: t => needle.isPrefixOf (c :: t) || sub_of needle t

/-- Python `needle in hay` for strings. -/
def pyIn (needle hay : String) : Bool :=
  sub_of needle.toList hay.toList

/-- Python truncation `s[:limit] + "..." if len(s) > limit else s`. -/
def py_truncate (limit : Nat) (s : String) : String :=
  if s.length > limit then s.take limit ++ "..." else s

/-- Lower-casing of one character (ASCII range, as used by the keyword data
of this repository). -/
def py_lower_char (c : Char) : Char :=
  if 65 ≤ c.toNat ∧ c.toNat ≤ 90 then Char.ofNat (c.toNat + 32) else c

/-- Python `s.lower()`. -/
def py_lower (s : String) : String := String.mk (s.toList.map py_lower_char)

mutual
/-- Python values as they appear in the JSON-like payloads of this system:
scalars (`str`, `int`, `float`, `bool`, `None`), dictionaries with string
keys, lists, and objects of any other type identified by their `str()`
rendering (`other`). -/
inductive JVal where
  | s (v : String)
  | i (v : Int)
  | f (v : Rat)
  | b (v : Bool)
  | none
  | other (r : String)
  | dict (entries : JObj)
  | list (items : JArr)

/-- Entries of a Python dictionary, in insertion order. -/
inductive JObj where
  | nil
  | cons (key : String) (val : JVal) (rest : JObj)

/-- Items of a Python list. -/
inductive JArr where
  | nil
  | cons (head : JVal) (rest : JArr)
end

deriving instance DecidableEq for JVal, JObj, JArr

/-- Build a dictionary value from a list of key/value pairs. -/
def JObj.ofList : List (String × JVal) → JObj
  | [] => .nil
  | (k, v) :: rest => .cons k v (JObj.ofList rest)

/-- Build a list value from a list of values. -/
def JArr.ofList : List JVal → JArr
  | [] => .nil
  | v :: rest => .cons v (JArr.ofList rest)

mutual
/-- Python `repr` of a value (quotes written with the ASCII escape 27). -/
def pyRepr : JVal → String
  | .s v => "\x27" ++ v ++ "\x27"
  | .i v => toString v
  | .f v => toString v
  | .b true => "True"
  | .b false => "False"
  | .none => "None"
  | .other r => r
  | .dict es => "\x7b" ++ pyReprObj es ++ "\x7d"
  | .list xs => "[" ++ pyReprArr xs ++ "]"

/-- Comma-separated `repr` of dictionary entries. -/
def pyReprObj : JObj → String
  | .nil => ""
  | .cons k v .nil => "\x27" ++ k ++ "\x27: " ++ pyRepr v
  | .cons k v rest => "\x27" ++ k ++ "\x27: " ++ pyRepr v ++ ", " ++ pyReprObj rest

/-- Comma-separated `repr` of list items. -/
def pyReprArr : JArr → String
  | .nil => ""
  | .cons v .nil => pyRepr v
  | .cons v rest => pyRepr v ++ ", " ++ pyReprArr rest
end

/-- Python `str` of a value: strings render without quotes, containers as `repr`. -/
def pyStr : JVal → String
  | .s v => v
  | v => pyRepr v

/-- Python truthiness of a value. -/
def jtruthy : JVal → Bool
  | .s v => !v.isEmpty
  | .i v => v != 0
  | .f v => v != 0
  | .b v => v
  | .none => false
  | .other _ => true
  | .dict .nil => false
  | .dict _ => true
  | .list .nil => false
  | .list _ => true

/-- Dictionary lookup, first matching key. -/
def jobj_get (k : String) : JObj → Option JVal
  | .nil => Option.none
  | .cons k2 v rest => if k = k2 then some v else jobj_get k rest

/-- Python `d.get(k, default)` on a dictionary value. -/
def jval_get (v : JVal) (k : String) (default : JVal) : JVal :=
  match v with
  | .dict es => (jobj_get k es).getD default
  | _ => default

/-!
Clause extraction (`src/core/clause_extractor.py`).
-/

namespace ClauseExtractor

/-- Keyword list `ClauseExtractor.approval_keywords`. -/
def approval_keywords : List String :=
  ["covered", "eligible", "approved", "included", "admissible",
   "payable", "reimbursable", "authorized", "permitted", "allowed"]

/-- Keyword list `ClauseExtractor.rejection_keywords`. -/
def rejection_keywords : List String :=
  ["not covered", "not eligible", "rejected", "excluded",
   "declined", "denied", "not payable", "not admissible",
   "prohibited", "restricted", "excluded from coverage"]

/-- Keyword list `ClauseExtractor.conditional_keywords`. -/
def conditional_keywords : List String :=
  ["subject to", "conditional upon", "depends on", "may be",
   "if approved", "pending", "under review", "requires"]

/-- Test whether any keyword of the list occurs in the (already lowered)
content, as in `any(keyword in content_lower for keyword in ...)`. -/
def matches_any (keywords : List String) (content_lower : String) : Bool :=
  keywords.any fun keyword => pyIn keyword content_lower

/-- Embeds `ClauseExtractor._analyze_clause_impact`: returns the pair
(clause type, decision impact). -/
def analyze_clause_impact (content : String) : String × String :=
  let content_lower := py_lower content
  if matches_any approval_keywords content_lower then
    ("approval", "positive")
  else if matches_any rejection_keywords content_lower then
    ("rejection", "negative")
  else if matches_any conditional_keywords content_lower then
    ("conditional", "neutral")
  else
    ("informational", "neutral")

end ClauseExtractor

/-!
Multi-hop reasoning (`multi_hop_reasoner.py`).
-/

namespace MultiHopReasoner

/-- Result of one reasoning step; only the optional `status` field of
`step["result"]` matters to the chain verdict. -/
structure StepResult where
  status : Option String
deriving DecidableEq

/-- Status string of a step, `step["result"].get("status", "unknown")`. -/
def status_of (step : StepResult) : String := step.status.getD "unknown"

/-- Statuses of the steps, in chain order.  Membership in this list is
equivalent to membership in the `status_counts` dictionary built by the
source. -/
def status_list (step_results : List StepResult) : List String :=
  step_results.map status_of

/-- Chain decision, a status together with its reason. -/
structure ChainDecision where
  status : String
  reason : String
deriving DecidableEq

/-- Embeds `MultiHopReasoner._evaluate_chain_decision`. -/
def evaluate_chain_decision (step_results : List StepResult) : ChainDecision :=
  let statuses := status_list step_results
  if statuses.contains "excluded" then
    ⟨"excluded", "Chain contains exclusions"⟩
  else if statuses.contains "ineligible" then
    ⟨"ineligible", "Chain contains ineligibility"⟩
  else if statuses.contains "restricted" then
    ⟨"restricted", "Chain contains restrictions"⟩
  else if statuses.contains "covered" || statuses.contains "eligible" then
    ⟨"eligible", "Chain indicates eligibility"⟩
  else
    ⟨"conditional", "Chain requires further evaluation"⟩

end MultiHopReasoner

/-!
Audit trail (`audit_trail.py`): payload sanitisation and the log invariants.
-/

namespace AuditTrail

/-- Configuration entry `audit_config["sensitive_fields"]`. -/
def sensitive_fields : List String := ["api_keys", "passwords", "personal_data"]

/-- Configuration entry `audit_config["retention_days"]`, in days. -/
def retention_days : Int := 365

/-- Configuration entry `audit_config["max_log_size"]`. -/
def max_log_size : Nat := 10000

/-- The literal redaction marker. -/
def redacted : JVal := .s "[REDACTED]"

mutual
/-- Dictionary branch of `AuditTrail._create_safe_dict`: each entry whose key
lower-cases to a sensitive field name is replaced by the redaction marker,
other values are processed by `safe_value`. -/
def safe_obj : JObj → JObj
  | .nil => .nil
  | .cons k v rest =>
    .cons k (if sensitive_fields.contains (py_lower k) then redacted else safe_value v)
      (safe_obj rest)

/-- Processing of a (non-sensitive) dictionary value in
`AuditTrail._create_safe_dict`: scalars are kept, dictionaries recurse,
lists are processed item-wise, any other type is stringified and truncated
at 100 characters. -/
def safe_value : JVal → JVal
  | .s v => .s v
  | .i v => .i v
  | .f v => .f v
  | .b v => .b v
  | .none => .none
  | .dict es => .dict (safe_obj es)
  | .list xs => .list (safe_arr xs)
  | .other r => .s (py_truncate 100 r)

/-- Item-wise processing of a list in `AuditTrail._create_safe_dict`. -/
def safe_arr : JArr → JArr
  | .nil => .nil
  | .cons item rest => .cons (safe_item item) (safe_arr rest)

/-- Processing of one list item in `AuditTrail._create_safe_dict`: scalars
are kept, dictionaries recurse, anything else (including a nested list) is
stringified and truncated at 100 characters. -/
def safe_item : JVal → JVal
  | .s v => .s v
  | .i v => .i v
  | .f v => .f v
  | .b v => .b v
  | .none => .none
  | .dict es => .dict (safe_obj es)
  | v => .s (py_truncate 100 (pyStr v))
end

/-- Embeds `AuditTrail._create_safe_dict` (top level): `None` becomes the
empty dictionary, dictionaries and lists are processed recursively, any
other value is stringified and truncated at 200 characters. -/
def create_safe_dict : JVal → JVal
  | .none => .dict .nil
  | .dict es => .dict (safe_obj es)
  | .list xs => .list (safe_arr xs)
  | v => .s (py_truncate 200 (pyStr v))

mutual
/-- Structural redaction invariant: every dictionary entry (at any depth
reachable through dictionaries and lists) whose key lower-cases to a
sensitive field name carries the literal redaction marker. -/
def sanitized_val : JVal → Bool
  | .dict es => sanitized_obj es
  | .list xs => sanitized_arr xs
  | _ => true

/-- Redaction invariant on dictionary entries. -/
def sanitized_obj : JObj → Bool
  | .nil => true
  | .cons k v rest =>
    (if sensitive_fields.contains (py_lower k) then v == redacted else true) &&
      sanitized_val v && sanitized_obj rest

/-- Redaction invariant on list items. -/
def sanitized_arr : JArr → Bool
  | .nil => true
  | .cons v rest => sanitized_val v && sanitized_arr rest
end

mutual
/-- Two payloads agree except possibly at the values of sensitive keys. -/
def sens_eq_val : JVal → JVal → Bool
  | .dict a, .dict b => sens_eq_obj a b
  | .list a, .list b => sens_eq_arr a b
  | a, b => a == b

/-- Entrywise agreement of dictionaries except at sensitive keys. -/
def sens_eq_obj : JObj → JObj → Bool
  | .nil, .nil => true
  | .cons k v r, .cons k2 v2 r2 =>
    k == k2 && (sensitive_fields.contains (py_lower k) || sens_eq_val v v2) &&
      sens_eq_obj r r2
  | _, _ => false

/-- Itemwise agreement of lists except at sensitive keys. -/
def sens_eq_arr : JArr → JArr → Bool
  | .nil, .nil => true
  | .cons v r, .cons v2 r2 => sens_eq_val v v2 && sens_eq_arr r r2
  | _, _ => false
end

mutual
/-- No list occurs directly inside a list: every nested list is reached
through a dictionary value.  Payloads violating this have their inner lists
flattened by `str()` in `AuditTrail._create_safe_dict`. -/
def no_ll_val : JVal → Bool
  | .dict es => no_ll_obj es
  | .list xs => no_ll_items xs
  | _ => true

/-- The list-in-list freedom condition on dictionary entries. -/
def no_ll_obj : JObj → Bool
  | .nil => true
  | .cons _ v rest => no_ll_val v && no_ll_obj rest

/-- The list-in-list freedom condition on list items: no item is itself a
list. -/
def no_ll_items : JArr → Bool
  | .nil => true
  | .cons item rest => no_ll_item item && no_ll_items rest

/-- An acceptable list item: not itself a list, and list-in-list free. -/
def no_ll_item : JVal → Bool
  | .list _ => false
  | v => no_ll_val v
end

/-- Embeds `AuditTrail._create_query_summary`, applied to the sanitized
query context.  If `parsed_entities` is not a dictionary, the attribute
error raised by `.get` is caught and the fallback string is returned. -/
def create_query_summary (query_context : JVal) : String :=
  let parsed := jval_get query_context "parsed_entities" (.dict .nil)
  match parsed with
  | .dict es =>
    let part := fun (k : String) (label : String) =>
      let v := (jobj_get k es).getD .none
      if jtruthy v then [label ++ ": " ++ pyStr v] else []
    let parts := part "age" "Age" ++ part "gender" "Gender" ++
      part "procedure" "Procedure" ++ part "location" "Location"
    if parts.isEmpty then "No details available"
    else String.intercalate " | " parts
  | _ => "Summary unavailable"

/-- Embeds `AuditTrail._calculate_processing_time` (a fixed placeholder). -/
def calculate_processing_time : Rat := 1 / 2

/-- One entry of the audit or activity log.  The timestamp is seconds since
an arbitrary epoch (the source stores ISO strings and compares the parsed
instants); `body` holds the remaining, already sanitized fields. -/
structure AuditEntry where
  audit_id : String
  timestamp : Int
  action : String
  user_id : String
  session_id : String
  body : JVal
deriving DecidableEq

/-- One entry of the decision history. -/
structure DecisionHistoryEntry where
  audit_id : String
  timestamp : Int
  decision : JVal
  amount : JVal
  confidence : JVal
  query_summary : String
deriving DecidableEq

/-- The mutable state of `AuditTrail`.  The cache statistics and logging
side effects are omitted; `uuid4` identifiers and `datetime.now()` instants
enter the operations as explicit parameters. -/
structure AuditState where
  audit_log : List AuditEntry
  session_trails : List (String × List AuditEntry)
  decision_history : List DecisionHistoryEntry
  activity_log : List AuditEntry
deriving DecidableEq

/-- Append an entry to the trail of a session, creating it when absent. -/
def trail_append (session_id : String) (e : AuditEntry) :
    List (String × List AuditEntry) → List (String × List AuditEntry)
  | [] => [(session_id, [e])]
  | (k, es) :: rest =>
    if session_id = k then (k, es ++ [e]) :: rest
    else (k, es) :: trail_append session_id e rest

/-- Embeds `AuditTrail._cleanup_old_entries`: entries older than the
retention window are dropped from every log, empty session trails are
removed, and the audit log is finally truncated to its most recent
`max_log_size` entries. -/
def cleanup_old_entries (now : Int) (s : AuditState) : AuditState :=
  let cutoff := now - retention_days * 86400
  let audit_log := s.audit_log.filter fun e => cutoff < e.timestamp
  let decision_history := s.decision_history.filter fun e => cutoff < e.timestamp
  let activity_log := s.activity_log.filter fun e => cutoff < e.timestamp
  let session_trails :=
    (s.session_trails.map fun p => (p.1, p.2.filter fun e => cutoff < e.timestamp)).filter
      fun p => !p.2.isEmpty
  let audit_log :=
    if audit_log.length > max_log_size then
      audit_log.drop (audit_log.length - max_log_size)
    else audit_log
  { audit_log, session_trails, decision_history, activity_log }

/-- The audit entry built by `AuditTrail.log_decision`. -/
def decision_entry (now : Int) (audit_id session_id user_id query : String)
    (decision query_context reasoning_result : JObj)
    (consistency_validation : Option JObj) : AuditEntry :=
  { audit_id, timestamp := now, action := "decision_made", user_id, session_id,
    body := .dict (JObj.ofList
      [("query", .s query),
       ("decision", .dict (safe_obj decision)),
       ("query_context", .dict (safe_obj query_context)),
       ("reasoning_result", .dict (safe_obj reasoning_result)),
       ("consistency_validation",
         match consistency_validation with
         | some cv => .dict (safe_obj cv)
         | Option.none => .none),
       ("metadata", .dict (JObj.ofList
         [("decision_id", .s ("dec_" ++ audit_id.take 8)),
          ("processing_time", .f calculate_processing_time),
          ("system_version", .s "1.0.0")]))]) }

/-- The decision-history entry built by `AuditTrail.log_decision`. -/
def decision_history_entry (now : Int) (audit_id : String)
    (decision query_context : JObj) : DecisionHistoryEntry :=
  let safe_decision : JVal := .dict (safe_obj decision)
  { audit_id, timestamp := now,
    decision := jval_get safe_decision "status" (.s "unknown"),
    amount := jval_get safe_decision "amount" (.s "N/A"),
    confidence := jval_get safe_decision "confidence" (.f 0),
    query_summary := create_query_summary (.dict (safe_obj query_context)) }

/-- Embeds `AuditTrail.log_decision` (the payload parameters carry the
declared type `Dict[str, Any]`). -/
def log_decision (now : Int) (audit_id session_id user_id query : String)
    (decision query_context reasoning_result : JObj)
    (consistency_validation : Option JObj) (s : AuditState) : AuditState :=
  let e := decision_entry now audit_id session_id user_id query decision
    query_context reasoning_result consistency_validation
  cleanup_old_entries now
    { s with
      audit_log := s.audit_log ++ [e],
      decision_history :=
        s.decision_history ++ [decision_history_entry now audit_id decision query_context],
      session_trails := trail_append session_id e s.session_trails }

/-- The activity entry built by `AuditTrail.log_activity`. -/
def activity_entry (now : Int) (audit_id session_id user_id action : String)
    (details : Option JObj) : AuditEntry :=
  { audit_id, timestamp := now, action, user_id, session_id,
    body := .dict (JObj.ofList
      [("details", .dict (safe_obj (details.getD .nil))),
       ("metadata", .dict (JObj.ofList
         [("activity_id", .s ("act_" ++ audit_id.take 8)),
          ("system_version", .s "1.0.0")]))]) }

/-- Embeds `AuditTrail.log_activity`: the entry goes to the activity log and
the session trail, not to the audit log. -/
def log_activity (now : Int) (audit_id session_id user_id action : String)
    (details : Option JObj) (s : AuditState) : AuditState :=
  let e := activity_entry now audit_id session_id user_id action details
  cleanup_old_entries now
    { s with
      activity_log := s.activity_log ++ [e],
      session_trails := trail_append session_id e s.session_trails }

/-- The error entry built by `AuditTrail.log_error`. -/
def error_entry (now : Int) (audit_id session_id user_id : String)
    (error_type error_message : String) (context : Option JObj) : AuditEntry :=
  { audit_id, timestamp := now, action := "error_occurred", user_id, session_id,
    body := .dict (JObj.ofList
      [("error_type", .s error_type),
       ("error_message", .s error_message),
       ("context", .dict (safe_obj (context.getD .nil))),
       ("metadata", .dict (JObj.ofList
         [("error_id", .s ("err_" ++ audit_id.take 8)),
          ("system_version", .s "1.0.0")]))]) }

/-- Embeds `AuditTrail.log_error`: the entry goes to the activity log and
the session trail, not to the audit log. -/
def log_error (now : Int) (audit_id session_id user_id : String)
    (error_type error_message : String) (context : Option JObj)
    (s : AuditState) : AuditState :=
  let e := error_entry now audit_id session_id user_id error_type error_message context
  cleanup_old_entries now
    { s with
      activity_log := s.activity_log ++ [e],
      session_trails := trail_append session_id e s.session_trails }

/-- One audit write, any of the three logging operations. -/
inductive AuditWrite where
  | decision (now : Int) (audit_id session_id user_id query : String)
      (decision query_context reasoning_result : JObj)
      (consistency_validation : Option JObj)
  | activity (now : Int) (audit_id session_id user_id action : String)
      (details : Option JObj)
  | error (now : Int) (audit_id session_id user_id : String)
      (error_type error_message : String) (context : Option JObj)

/-- Apply one audit write to the state. -/
def apply_write (w : AuditWrite) (s : AuditState) : AuditState :=
  match w with
  | .decision now aid sid uid q d qc rr cv => log_decision now aid sid uid q d qc rr cv s
  | .activity now aid sid uid act det => log_activity now aid sid uid act det s
  | .error now aid sid uid et em ctx => log_error now aid sid uid et em ctx s

end AuditTrail

/-!
Enhanced query processing (`src/core/enhanced_query_processor.py`).
-/

namespace QueryProcessor

/-- Python `str.split()` without arguments: split on whitespace and drop
empty pieces. -/
def py_split_ws_go (cur : List Char) : List Char → List String
  | [] => if cur.isEmpty then [] else [String.mk cur.reverse]
  | c :: rest =>
    if c.isWhitespace then
      (if cur.isEmpty then [] else [String.mk cur.reverse]) ++ py_split_ws_go [] rest
    else py_split_ws_go (c :: cur) rest

/-- Python `s.split()`. -/
def py_split_ws (s : String) : List String := py_split_ws_go [] s.toList

/-- Accumulate a decimal numeral; fails on any non-digit character. -/
def digits_val (acc : Nat) : List Char → Option Nat
  | [] => some acc
  | c :: rest => if c.isDigit then digits_val (acc * 10 + (c.toNat - 48)) rest else Option.none

/-- Python `int(s)` on the plain decimal strings produced by this system;
`Option.none` models the `ValueError` raised on anything else. -/
def py_to_int (s : String) : Option Int :=
  match s.toList with
  | [] => Option.none
  | ['-'] => Option.none
  | '-' :: d :: ds => (digits_val 0 (d :: ds)).map fun n => -(n : Int)
  | d :: ds => (digits_val 0 (d :: ds)).map fun n => (n : Int)

/-- The parsed entities of a query, the keys of the dictionary built by
`EnhancedQueryProcessor._parse_basic`. -/
structure ParsedQuery where
  age : Option String
  gender : Option String
  procedure : Option String
  location : Option String
  policy_duration : Option String
  medical_condition : Option String
  urgency : Option String
  coverage_type : Option String
deriving DecidableEq

/-- Field access `parsed.get(name)`. -/
def get_field (p : ParsedQuery) : String → Option String
  | "age" => p.age
  | "gender" => p.gender
  | "procedure" => p.procedure
  | "location" => p.location
  | "policy_duration" => p.policy_duration
  | "medical_condition" => p.medical_condition
  | "urgency" => p.urgency
  | "coverage_type" => p.coverage_type
  | _ => Option.none

/-- Python falsiness of an optional string (`None` and `""` are falsy). -/
def py_falsy (o : Option String) : Bool :=
  match o with
  | Option.none => true
  | some s => s.isEmpty

/-- Configuration `validation_rules["required_fields"]`. -/
def required_fields : List String := ["procedure"]

/-- Configuration `validation_rules["optional_fields"]`. -/
def optional_fields : List String := ["age", "gender", "location", "policy_duration"]

/-- Configuration `validation_rules["min_query_length"]`. -/
def min_query_length : Nat := 5

/-- Configuration `validation_rules["max_query_length"]`. -/
def max_query_length : Nat := 500

/-- All parsed fields, in dictionary insertion order, for the completeness
score. -/
def all_fields (p : ParsedQuery) : List (Option String) :=
  [p.age, p.gender, p.procedure, p.location, p.policy_duration,
   p.medical_condition, p.urgency, p.coverage_type]

/-- Embeds `EnhancedQueryProcessor._calculate_completeness`. -/
def calculate_completeness (p : ParsedQuery) : Rat :=
  let total_fields := (all_fields p).length
  let filled_fields := ((all_fields p).filter fun v => !py_falsy v).length
  (filled_fields : Rat) / (total_fields : Rat)

/-- Result dictionary of `EnhancedQueryProcessor._validate_query`. -/
structure ValidationResult where
  is_valid : Bool
  errors : List String
  warnings : List String
  suggestions : List String
  completeness_score : Rat
deriving DecidableEq

/-- Embeds `EnhancedQueryProcessor._validate_query`.  `Option.none` models
the `ValueError` escaping from `int(...)` on a malformed numeric field
(caught only by the caller `process_query`). -/
def validate_query (query : String) (parsed : ParsedQuery) : Option ValidationResult :=
  let errors : List String :=
    if query.length < min_query_length then ["Query too short. Please provide more details."] else []
  let warnings : List String :=
    if query.length > max_query_length then ["Query is very long. Consider being more concise."] else []
  let missing_required := required_fields.filter fun f => py_falsy (get_field parsed f)
  let errors := errors ++
    (if !missing_required.isEmpty then
      ["Missing required information: " ++ String.intercalate ", " missing_required]
    else [])
  let suggestions : List String :=
    if !missing_required.isEmpty then ["Please specify the medical procedure or treatment."] else []
  let missing_optional := optional_fields.filter fun f => py_falsy (get_field parsed f)
  let suggestions := suggestions ++
    (if !missing_optional.isEmpty then
      ["Consider adding: " ++ String.intercalate ", " missing_optional]
    else [])
  let age_step : Option (List String) :=
    if !py_falsy parsed.age then
      match py_to_int (parsed.age.getD "") with
      | some age => some (if age < 0 ∨ age > 120 then ["Invalid age specified."] else [])
      | Option.none => Option.none
    else some []
  match age_step with
  | Option.none => Option.none
  | some age_errors =>
    let errors := errors ++ age_errors
    let errors := errors ++
      (if !py_falsy parsed.gender ∧ parsed.gender.getD "" ∉ (["M", "F"] : List String) then
        ["Invalid gender specification."]
      else [])
    let duration_step : Option (List String) :=
      if !py_falsy parsed.policy_duration then
        let duration := parsed.policy_duration.getD ""
        if pyIn "month" duration then
          match py_split_ws duration with
          | [] => Option.none
          | tok :: _ =>
            match py_to_int tok with
            | some months =>
              some (if months < 1 ∨ months > 60 then
                ["Policy duration seems unusual. Please verify."] else [])
            | Option.none => Option.none
        else some []
      else some []
    match duration_step with
    | Option.none => Option.none
    | some duration_warnings =>
      let warnings := warnings ++ duration_warnings
      some
        { is_valid := errors.length = 0,
          errors, warnings, suggestions,
          completeness_score := calculate_completeness parsed }

end QueryProcessor

/-!
Evidence mapping (`src/core/clause_extractor.py`, class `EvidenceMapper`).
-/

namespace EvidenceMapper

/-- A mapped evidence clause; only its decision impact and relevance score
matter to the confidence computation. -/
structure MappedClause where
  decision_impact : String
  relevance_score : Rat
deriving DecidableEq

/-- Embeds `EvidenceMapper._calculate_decision_confidence`. -/
def calculate_decision_confidence (clauses : List MappedClause) (decision : String) : Rat :=
  if clauses.isEmpty then 0
  else
    let supporting_clauses := clauses.filter fun c => c.decision_impact = "positive"
    let opposing_clauses := clauses.filter fun c => c.decision_impact = "negative"
    let total_relevance := (clauses.map MappedClause.relevance_score).sum
    let supporting_relevance := (supporting_clauses.map MappedClause.relevance_score).sum
    let opposing_relevance := (opposing_clauses.map MappedClause.relevance_score).sum
    if total_relevance = 0 then 1 / 2
    else
      let confidence : Rat :=
        if py_lower decision = "approved" then supporting_relevance / total_relevance
        else if py_lower decision = "rejected" then opposing_relevance / total_relevance
        else 1 / 2
      min confidence 1

end EvidenceMapper

/-!
Consistency validation (`src/core/consistency_validator.py`).
-/

namespace ConsistencyValidator

/-- Embeds `ConsistencyValidator._calculate_consistency_score` as a function
of the lengths of the warnings, anomalies and pattern-match lists. -/
def calculate_consistency_score (warnings anomalies pattern_matches : Nat) : Rat :=
  let base_score : Rat := 1
  let warning_penalty : Rat := (warnings : Rat) * (1 / 10)
  let base_score := base_score - min warning_penalty (1 / 2)
  let anomaly_penalty : Rat := (anomalies : Rat) * (2 / 10)
  let base_score := base_score - min anomaly_penalty (1 / 2)
  let pattern_bonus : Rat := (pattern_matches : Rat) * (5 / 100)
  let base_score := base_score + min pattern_bonus (2 / 10)
  max 0 (min 1 base_score)

/-- Final consistency verdict of
`ConsistencyValidator.validate_decision_consistency`, computed from the
aggregated warning and anomaly lists and the freshly computed confidence
score. -/
def is_consistent_final (warnings anomalies : List String) (confidence_score : Rat) : Bool :=
  decide (warnings.length = 0 ∧ anomalies.length = 0 ∧ confidence_score > 7 / 10)

end ConsistencyValidator

/-!
Cache management (`src/utils/cache_manager.py`).  The four cache categories
(documents, queries, decisions, reasoning) share one implementation; a
`CacheState` models one category's store together with the shared
`cache_stats["last_cleanup"]` stamp, and the operations take the category's
TTL as a parameter (`cache_config`).
-/

namespace CacheManager

/-- One cache entry, as built by `cache_query_processing`,
`cache_decision_result`, `cache_document_embeddings` and
`cache_reasoning_result`. -/
structure CacheEntry (α : Type) where
  value : α
  timestamp : Int
  access_count : Nat
deriving DecidableEq

/-- Configuration `cache_config["max_cache_size"]`. -/
def max_cache_size : Nat := 1000

/-- Configuration `cache_config["cleanup_interval"]`, seconds. -/
def cleanup_interval : Int := 300

/-- Configuration `cache_config["query_cache_ttl"]`, seconds. -/
def query_cache_ttl : Int := 1800

/-- Configuration `cache_config["decision_cache_ttl"]`, seconds. -/
def decision_cache_ttl : Int := 7200

/-- Configuration `cache_config["document_cache_ttl"]`, seconds. -/
def document_cache_ttl : Int := 3600

/-- Configuration `cache_config["reasoning_cache_ttl"]`, seconds. -/
def reasoning_cache_ttl : Int := 3600

/-- Python dictionary assignment `d[k] = v`: replace in place, else append. -/
def dict_set {κ ε : Type} [DecidableEq κ] (k : κ) (v : ε) :
    List (κ × ε) → List (κ × ε)
  | [] => [(k, v)]
  | (k2, v2) :: rest =>
    if k = k2 then (k, v) :: rest else (k2, v2) :: dict_set k v rest

/-- Python dictionary lookup `d.get(k)`. -/
def dict_get {κ ε : Type} [DecidableEq κ] (k : κ) : List (κ × ε) → Option ε
  | [] => Option.none
  | (k2, v) :: rest => if k = k2 then some v else dict_get k rest

/-- Python dictionary deletion `del d[k]`. -/
def dict_del {κ ε : Type} [DecidableEq κ] (k : κ) : List (κ × ε) → List (κ × ε)
  | [] => []
  | (k2, v) :: rest => if k = k2 then rest else (k2, v) :: dict_del k rest

/-- One category's store together with the shared cleanup stamp. -/
structure CacheState (κ α : Type) where
  entries : List (κ × CacheEntry α)
  last_cleanup : Int
deriving DecidableEq

/-- Embeds `CacheManager._is_cache_entry_valid`. -/
def is_cache_entry_valid {α : Type} (now ttl : Int) (e : CacheEntry α) : Bool :=
  now - e.timestamp < ttl

/-- The sort key comparison used by `CacheManager._enforce_cache_size_limits`:
ascending lexicographic order on `(access_count, timestamp)`. -/
def evict_le {κ α : Type} (a b : κ × CacheEntry α) : Bool :=
  decide (a.2.access_count < b.2.access_count ∨
    (a.2.access_count = b.2.access_count ∧ a.2.timestamp ≤ b.2.timestamp))

/-- Stable insertion into a sorted list (ties keep the earlier element
first, as Python's stable `sorted` does). -/
def sort_insert {α : Type} (le : α → α → Bool) (x : α) : List α → List α
  | [] => [x]
  | y :: ys => if le x y then x :: y :: ys else y :: sort_insert le x ys

/-- Stable sort, modelling Python's `sorted` with the eviction key. -/
def stable_sort {α : Type} (le : α → α → Bool) : List α → List α
  | [] => []
  | x :: xs => sort_insert le x (stable_sort le xs)

/-- Embeds `CacheManager._cleanup_expired_entries` for one category. -/
def cleanup_expired_entries {κ α : Type} (now ttl : Int)
    (entries : List (κ × CacheEntry α)) : List (κ × CacheEntry α) :=
  entries.filter fun p => is_cache_entry_valid now ttl p.2

/-- Embeds `CacheManager._enforce_cache_size_limits` for one category: when
the store exceeds `max_cache_size`, the excess entries lowest in the
`(access_count, timestamp)` order are deleted. -/
def enforce_cache_size_limits {κ α : Type} [DecidableEq κ]
    (entries : List (κ × CacheEntry α)) : List (κ × CacheEntry α) :=
  if entries.length > max_cache_size then
    let sorted_entries := stable_sort evict_le entries
    let entries_to_remove := entries.length - max_cache_size
    (sorted_entries.take entries_to_remove).foldl (fun d p => dict_del p.1 d) entries
  else entries

/-- Embeds `CacheManager._cleanup_cache_if_needed`: a sweep runs only when
`cleanup_interval` has elapsed since the last one. -/
def cleanup_cache_if_needed {κ α : Type} [DecidableEq κ] (now ttl : Int)
    (s : CacheState κ α) : CacheState κ α :=
  if now - s.last_cleanup < cleanup_interval then s
  else
    { entries := enforce_cache_size_limits (cleanup_expired_entries now ttl s.entries),
      last_cleanup := now }

/-- Embeds the four `cache_*` write methods: store the entry with a fresh
timestamp and `access_count = 0`, then run the conditional cleanup. -/
def cache_put {κ α : Type} [DecidableEq κ] (now ttl : Int) (k : κ) (v : α)
    (s : CacheState κ α) : CacheState κ α :=
  cleanup_cache_if_needed now ttl
    { s with entries := dict_set k ⟨v, now, 0⟩ s.entries }

/-- Embeds the four `get_cached_*` read methods: a hit requires the entry to
be present and TTL-valid and increments its access count in place; a miss
leaves the store untouched. -/
def cache_get {κ α : Type} [DecidableEq κ] (now ttl : Int) (k : κ)
    (s : CacheState κ α) : Option α × CacheState κ α :=
  match dict_get k s.entries with
  | some e =>
    if is_cache_entry_valid now ttl e then
      (some e.value,
        { s with entries := dict_set k { e with access_count := e.access_count + 1 } s.entries })
    else (Option.none, s)
  | Option.none => (Option.none, s)

end CacheManager

end RagDoc

namespace RagDoc

open ClauseExtractor MultiHopReasoner AuditTrail QueryProcessor EvidenceMapper
open ConsistencyValidator CacheManager

/-- The snippet from the spec scenario. -/
def teeth_snippet : String := "Teeth whitening is considered cosmetic and not covered"

/-- C1, counterexample.  The rejection keywords are not checked first: the
approval keywords are, and since "covered" occurs inside "not covered" the
scenario snippet is classified as an approval clause with positive impact,
not negative as the claim states. -/
theorem analyze_clause_impact_teeth_not_negative :
    analyze_clause_impact teeth_snippet = ("approval", "positive") ∧
      analyze_clause_impact teeth_snippet ≠ ("rejection", "negative") := by
  constructor
  · decide
  · decide

/-- C1, amended.  Impact classification is a deterministic keyword-set
membership test in which the approval keywords are checked first, then the
rejection keywords, then the conditional keywords; the first matching list
determines the result and no match yields neutral/informational.  The
scenario snippet is classified approval/positive because "covered" occurs
in it as a substring. -/
theorem analyze_clause_impact_priority (content : String) :
    (matches_any approval_keywords (py_lower content) = true →
      analyze_clause_impact content = ("approval", "positive")) ∧
    (matches_any approval_keywords (py_lower content) = false →
      matches_any rejection_keywords (py_lower content) = true →
      analyze_clause_impact content = ("rejection", "negative")) ∧
    (matches_any approval_keywords (py_lower content) = false →
      matches_any rejection_keywords (py_lower content) = false →
      matches_any conditional_keywords (py_lower content) = true →
      analyze_clause_impact content = ("conditional", "neutral")) ∧
    (matches_any approval_keywords (py_lower content) = false →
      matches_any rejection_keywords (py_lower content) = false →
      matches_any conditional_keywords (py_lower content) = false →
      analyze_clause_impact content = ("informational", "neutral")) := by
  refine ⟨fun h1 => ?_, fun h1 h2 => ?_, fun h1 h2 h3 => ?_, fun h1 h2 h3 => ?_⟩ <;>
    simp [analyze_clause_impact, h1]
  · simp [h2]
  · simp [h2, h3]
  · simp [h2, h3]

/-- C1, witness for the amended theorem: on the scenario snippet the approval
keywords match, and the classification is approval/positive. -/
theorem analyze_clause_impact_priority_witness :
    analyze_clause_impact teeth_snippet = ("approval", "positive") :=
  (analyze_clause_impact_priority teeth_snippet).1 (by decide)


/-- C2.  The chain verdict follows the exact priority order: any excluded
step makes the chain excluded; otherwise any ineligible step makes it
ineligible; otherwise any restricted step makes it restricted; otherwise
any eligible or covered step makes it eligible; otherwise it is
conditional. -/
theorem evaluate_chain_decision_priority (steps : List StepResult) :
    ("excluded" ∈ status_list steps →
      (evaluate_chain_decision steps).status = "excluded") ∧
    ("excluded" ∉ status_list steps →
      "ineligible" ∈ status_list steps →
      (evaluate_chain_decision steps).status = "ineligible") ∧
    ("excluded" ∉ status_list steps →
      "ineligible" ∉ status_list steps →
      "restricted" ∈ status_list steps →
      (evaluate_chain_decision steps).status = "restricted") ∧
    ("excluded" ∉ status_list steps →
      "ineligible" ∉ status_list steps →
      "restricted" ∉ status_list steps →
      ("eligible" ∈ status_list steps ∨ "covered" ∈ status_list steps) →
      (evaluate_chain_decision steps).status = "eligible") ∧
    ("excluded" ∉ status_list steps →
      "ineligible" ∉ status_list steps →
      "restricted" ∉ status_list steps →
      "eligible" ∉ status_list steps →
      "covered" ∉ status_list steps →
      (evaluate_chain_decision steps).status = "conditional") := by
  refine ⟨fun h1 => ?_, fun h1 h2 => ?_, fun h1 h2 h3 => ?_,
    fun h1 h2 h3 h4 => ?_, fun h1 h2 h3 h4 h5 => ?_⟩
  · simp [evaluate_chain_decision, h1]
  · simp [evaluate_chain_decision, h1, h2]
  · simp [evaluate_chain_decision, h1, h2, h3]
  · rcases h4 with h4 | h4 <;> simp [evaluate_chain_decision, h1, h2, h3, h4]
  · simp [evaluate_chain_decision, h1, h2, h3, h4, h5]

/-- C2, witness: a chain with an eligible step and an excluded step is
excluded. -/
theorem evaluate_chain_decision_priority_witness :
    (evaluate_chain_decision [⟨some "eligible"⟩, ⟨some "excluded"⟩]).status = "excluded" :=
  (evaluate_chain_decision_priority [⟨some "eligible"⟩, ⟨some "excluded"⟩]).1 (by decide)

/-- C7.  The consistency score equals
`1 − min(0.5, 0.1·w) − min(0.5, 0.2·a) + min(0.2, 0.05·p)` clamped to
`[0, 1]`, and the final verdict is consistent exactly when there are no
warnings, no anomalies, and the score exceeds 0.7 — the conjunction of all
three conditions. -/
theorem consistency_score_formula (w a p : Nat) (warnings anomalies : List String)
    (score : Rat) :
    calculate_consistency_score w a p =
      max 0 (min 1 (1 - min (1 / 2) ((1 / 10) * (w : Rat)) - min (1 / 2) ((2 / 10) * (a : Rat))
        + min (2 / 10) ((5 / 100) * (p : Rat)))) ∧
    (is_consistent_final warnings anomalies score = true ↔
      warnings = [] ∧ anomalies = [] ∧ score > 7 / 10) := by
  constructor
  · show max 0 (min 1 (1 - min ((w : Rat) * (1 / 10)) (1 / 2)
        - min ((a : Rat) * (2 / 10)) (1 / 2) + min ((p : Rat) * (5 / 100)) (2 / 10))) = _
    rw [min_comm ((w : Rat) * (1 / 10)), min_comm ((a : Rat) * (2 / 10)),
      min_comm ((p : Rat) * (5 / 100)), mul_comm ((w : Rat)) (1 / 10),
      mul_comm ((a : Rat)) (2 / 10), mul_comm ((p : Rat)) (5 / 100)]
  · simp [is_consistent_final, List.length_eq_zero]

/-- Sum of the relevance scores of a filtered sublist is at most the sum
over the whole list when all scores are nonnegative. -/
theorem filter_relevance_sum_le (clauses : List MappedClause) (p : MappedClause → Bool)
    (h : ∀ c ∈ clauses, 0 ≤ c.relevance_score) :
    ((clauses.filter p).map MappedClause.relevance_score).sum ≤
      (clauses.map MappedClause.relevance_score).sum := by
  induction clauses with
  | nil => simp
  | cons c cs ih =>
    have hc := h c (by simp)
    have ih2 := ih fun d hd => h d (by simp [hd])
    by_cases hp : p c
    · simpa [hp] using ih2
    · simp [List.filter_cons, hp]
      linarith

/-- C6, counterexample.  With no clauses the decision confidence is 0, not
0.5 as the claim states. -/
theorem decision_confidence_empty_is_zero :
    calculate_decision_confidence [] "unclear" = 0 ∧
      calculate_decision_confidence [] "unclear" ≠ 1 / 2 := by
  constructor
  · norm_num [calculate_decision_confidence]
  · norm_num [calculate_decision_confidence]

/-- C6, amended.  With nonnegative relevance scores, the evidence-based
decision confidence equals the ratio of the relevance mass on the side
matching the decision status to the total relevance mass; it is 0 when no
clauses were found, and 0.5 when the total relevance mass is zero or the
decision is neither "approved" nor "rejected" (such as "unclear"). -/
theorem decision_confidence_characterization (clauses : List MappedClause)
    (decision : String) (hnn : ∀ c ∈ clauses, 0 ≤ c.relevance_score) :
    (clauses = [] → calculate_decision_confidence clauses decision = 0) ∧
    (clauses ≠ [] →
      (clauses.map MappedClause.relevance_score).sum = 0 →
      calculate_decision_confidence clauses decision = 1 / 2) ∧
    (clauses ≠ [] →
      (clauses.map MappedClause.relevance_score).sum ≠ 0 →
      py_lower decision = "approved" →
      calculate_decision_confidence clauses decision =
        ((clauses.filter fun c => c.decision_impact = "positive").map
          MappedClause.relevance_score).sum /
          (clauses.map MappedClause.relevance_score).sum) ∧
    (clauses ≠ [] →
      (clauses.map MappedClause.relevance_score).sum ≠ 0 →
      py_lower decision = "rejected" →
      calculate_decision_confidence clauses decision =
        ((clauses.filter fun c => c.decision_impact = "negative").map
          MappedClause.relevance_score).sum /
          (clauses.map MappedClause.relevance_score).sum) ∧
    (clauses ≠ [] →
      (clauses.map MappedClause.relevance_score).sum ≠ 0 →
      py_lower decision ≠ "approved" →
      py_lower decision ≠ "rejected" →
      calculate_decision_confidence clauses decision = 1 / 2) := by
  have htot : (clauses.map MappedClause.relevance_score).sum ≠ 0 →
      0 < (clauses.map MappedClause.relevance_score).sum := by
    intro hne
    have : 0 ≤ (clauses.map MappedClause.relevance_score).sum := by
      apply List.sum_nonneg
      intro x hx
      obtain ⟨c, hc, rfl⟩ := List.mem_map.1 hx
      exact hnn c hc
    exact lt_of_le_of_ne this (Ne.symm hne)
  refine ⟨fun h1 => ?_, fun h1 h2 => ?_, fun h1 h2 h3 => ?_, fun h1 h2 h3 => ?_,
    fun h1 h2 h3 h4 => ?_⟩
  · simp [calculate_decision_confidence, h1]
  · simp [calculate_decision_confidence, h1, h2]
  · have hle : ((clauses.filter fun c => c.decision_impact = "positive").map
        MappedClause.relevance_score).sum / (clauses.map MappedClause.relevance_score).sum ≤ 1 := by
      rw [div_le_one (htot h2)]
      exact filter_relevance_sum_le clauses _ hnn
    simp [calculate_decision_confidence, h1, h2, h3, min_eq_left hle]
  · have hle : ((clauses.filter fun c => c.decision_impact = "negative").map
        MappedClause.relevance_score).sum / (clauses.map MappedClause.relevance_score).sum ≤ 1 := by
      rw [div_le_one (htot h2)]
      exact filter_relevance_sum_le clauses _ hnn
    by_cases happ : py_lower decision = "approved"
    · rw [h3] at happ
      simp at happ
    · simp [calculate_decision_confidence, h1, h2, h3, happ, min_eq_left hle]
  · simp [calculate_decision_confidence, h1, h2, h3, h4]
    norm_num

/-- C6, witness: one positive clause of relevance 3/4 and one negative
clause of relevance 1/4 give an approved decision the confidence 3/4. -/
theorem decision_confidence_characterization_witness :
    calculate_decision_confidence [⟨"positive", 3 / 4⟩, ⟨"negative", 1 / 4⟩] "Approved" =
      3 / 4 := by
  have h := (decision_confidence_characterization
    [⟨"positive", 3 / 4⟩, ⟨"negative", 1 / 4⟩] "Approved"
    (by intro c hc; simp only [List.mem_cons, List.not_mem_nil, or_false] at hc; rcases hc with rfl | rfl <;> norm_num)).2.2.1
    (by simp) (by norm_num [List.sum_cons]) (by decide)
  norm_num [List.sum_cons, List.filter_cons] at h
  rw [if_neg (by decide : ¬("negative" = "positive"))] at h
  norm_num at h
  exact h

/-- C5, counterexample.  A query of sufficient length whose parsed record
has the procedure set but an implausible age fails validation: the age
outside [0, 120] produces an error, not merely a warning. -/
theorem validate_query_age_error_counterexample :
    ((validate_query "knee surgery for a 150 year old"
        ⟨some "150", Option.none, some "knee surgery", Option.none, Option.none,
          Option.none, Option.none, Option.none⟩).map ValidationResult.is_valid =
      some false) ∧
      ¬("knee surgery for a 150 year old".length < min_query_length) ∧
      py_falsy (some "knee surgery") = false := by
  refine ⟨by decide, by decide, by decide⟩

/-- C5, amended.  Validation fails exactly when the query is shorter than
the configured minimum, or the single required field `procedure` is falsy,
or a present age parses to a value outside [0, 120], or a present gender is
not M/F; in particular a parsed query with the procedure unset is always
invalid.  A policy duration outside [1, 60] months only adds a warning. -/
theorem validate_query_characterization (query : String) (parsed : ParsedQuery)
    (r : ValidationResult) (h : validate_query query parsed = some r) :
    (r.is_valid = false ↔
      (query.length < min_query_length ∨ py_falsy parsed.procedure = true ∨
        (py_falsy parsed.age = false ∧
          ∃ n, py_to_int (parsed.age.getD "") = some n ∧ (n < 0 ∨ n > 120)) ∨
        (py_falsy parsed.gender = false ∧
          parsed.gender.getD "" ∉ (["M", "F"] : List String)))) ∧
    (py_falsy parsed.policy_duration = false →
      pyIn "month" (parsed.policy_duration.getD "") = true →
      ∀ tok rest, py_split_ws (parsed.policy_duration.getD "") = tok :: rest →
      ∀ m, py_to_int tok = some m → (m < 1 ∨ m > 60) →
      "Policy duration seems unusual. Please verify." ∈ r.warnings) := by
  simp only [validate_query] at h
  split at h
  · cases h
  next age_errors hage_eq =>
    split at h
    · cases h
    next duration_warnings hdur_eq =>
      rw [Option.some_inj] at h
      subst h
      constructor
      · have hageinfo : (py_falsy parsed.age = true ∧ age_errors = []) ∨
            (py_falsy parsed.age = false ∧ ∃ n, py_to_int (parsed.age.getD "") = some n ∧
              age_errors = (if n < 0 ∨ n > 120 then ["Invalid age specified."] else [])) := by
          by_cases hage : py_falsy parsed.age = true
          · simp only [hage, Bool.not_true, Bool.false_eq_true, if_false,
              Option.some_inj] at hage_eq
            exact Or.inl ⟨hage, hage_eq.symm⟩
          · have hage2 : py_falsy parsed.age = false := by
              cases hpf : py_falsy parsed.age
              · rfl
              · exact absurd hpf hage
            rcases hpi : py_to_int (parsed.age.getD "") with _ | n
            · simp [hage2, hpi] at hage_eq
            · simp only [hage2, Bool.not_false, if_true, hpi, Option.some_inj] at hage_eq
              exact Or.inr ⟨hage2, n, rfl, hage_eq.symm⟩
        rcases hageinfo with ⟨hage, rfl⟩ | ⟨hage, n, hpi, rfl⟩
        · simp only [ValidationResult.is_valid, decide_eq_false_iff_not, List.length_eq_zero,
            List.append_eq_nil, List.append_nil]
          by_cases h1 : query.length < min_query_length <;>
            by_cases h2 : py_falsy parsed.procedure = true <;>
            by_cases h5 : py_falsy parsed.gender = false ∧
              parsed.gender.getD "" ∉ (["M", "F"] : List String) <;>
            simp_all [required_fields, get_field, Bool.not_eq_true', hage]
        · simp only [ValidationResult.is_valid, decide_eq_false_iff_not, List.length_eq_zero,
            List.append_eq_nil, List.append_nil]
          by_cases h1 : query.length < min_query_length <;>
            by_cases h2 : py_falsy parsed.procedure = true <;>
            by_cases h5 : py_falsy parsed.gender = false ∧
              parsed.gender.getD "" ∉ (["M", "F"] : List String) <;>
            by_cases h3 : n < 0 ∨ n > 120 <;>
            simp_all [required_fields, get_field, Bool.not_eq_true', hage, hpi]
      · intro hd1 hd2 tok rest hsplit m hm hrange
        simp only [hd1, Bool.not_false, if_true, hd2, hsplit, hm, Option.some_inj] at hdur_eq
        rw [if_pos hrange] at hdur_eq
        simp only [ValidationResult.warnings]
        rw [← hdur_eq]
        simp

/-- C5, witness: with the procedure unset, validation reports the query as
invalid. -/
theorem validate_query_characterization_witness :
    (validate_query "knee surgery hurts"
        ⟨Option.none, Option.none, Option.none, Option.none, Option.none,
          Option.none, Option.none, Option.none⟩).map ValidationResult.is_valid =
      some false := by
  obtain ⟨r, hr⟩ : ∃ r, validate_query "knee surgery hurts"
      ⟨Option.none, Option.none, Option.none, Option.none, Option.none,
        Option.none, Option.none, Option.none⟩ = some r := ⟨_, rfl⟩
  rw [hr, Option.map_some']
  have hiff := (validate_query_characterization _ _ r hr).1
  rw [hiff.2 (Or.inr (Or.inl (by decide)))]

/-- Cleanup always leaves the audit log within the configured cap. -/
theorem cleanup_old_entries_bounded (now : Int) (s : AuditState) :
    (cleanup_old_entries now s).audit_log.length ≤ max_log_size := by
  unfold cleanup_old_entries
  by_cases h : (s.audit_log.filter fun e => now - retention_days * 86400 < e.timestamp).length >
      max_log_size
  · simp only [h, if_true]
    rw [List.length_drop]
    omega
  · simp only [h, if_false]
    omega

/-- C3.  After any audit write (decision, activity or error) the flat audit
log holds at most `max_log_size` entries; and a decision write landing on a
full log of in-retention entries evicts exactly the oldest entry, appending
the new one at the end. -/
theorem audit_log_bounded :
    (∀ (w : AuditWrite) (s : AuditState),
      ((apply_write w s).audit_log).length ≤ max_log_size) ∧
    (∀ (now : Int) (aid sid uid q : String) (d qc rr : JObj) (cv : Option JObj)
      (s : AuditState),
      s.audit_log.length = max_log_size →
      (∀ e ∈ s.audit_log, now - retention_days * 86400 < e.timestamp) →
      (log_decision now aid sid uid q d qc rr cv s).audit_log =
        s.audit_log.tail ++ [decision_entry now aid sid uid q d qc rr cv]) := by
  constructor
  · intro w s
    cases w <;> apply cleanup_old_entries_bounded
  · intro now aid sid uid q d qc rr cv s hfull hfresh
    have hts : (decision_entry now aid sid uid q d qc rr cv).timestamp = now := rfl
    have hfilter :
        ((s.audit_log ++ [decision_entry now aid sid uid q d qc rr cv]).filter
          fun e => now - retention_days * 86400 < e.timestamp) =
          s.audit_log ++ [decision_entry now aid sid uid q d qc rr cv] := by
      rw [List.filter_eq_self]
      intro e he
      rcases List.mem_append.1 he with he | he
      · simpa using hfresh e he
      · simp only [List.mem_singleton] at he
        subst he
        rw [decide_eq_true_eq, hts]
        have : (0 : Int) < retention_days * 86400 := by decide
        omega
    unfold log_decision cleanup_old_entries
    simp only [hfilter]
    have hlen : (s.audit_log ++ [decision_entry now aid sid uid q d qc rr cv]).length =
        max_log_size + 1 := by
      simp [hfull]
    rw [if_pos (by rw [hlen]; exact Nat.lt_succ_self _)]
    rw [hlen, Nat.add_sub_cancel_left]
    rw [List.drop_append_of_le_length (by rw [hfull]; decide), List.drop_one]

/-- C3, witness: on a full log of 10,000 fresh entries, the 10,001st
decision write evicts the oldest entry and appends the new one, and every
write keeps the log within the cap. -/
theorem audit_log_bounded_witness :
    ((apply_write (.activity 0 "a1" "sess" "user" "upload" Option.none)
        ⟨[], [], [], []⟩).audit_log).length ≤ max_log_size ∧
    (log_decision 0 "a2" "sess" "user" "q" .nil .nil .nil Option.none
        ⟨List.replicate 10000 ⟨"a0", 0, "decision_made", "user", "sess", .dict .nil⟩,
          [], [], []⟩).audit_log =
      (List.replicate 10000
        (⟨"a0", 0, "decision_made", "user", "sess", .dict .nil⟩ : AuditEntry)).tail ++
        [decision_entry 0 "a2" "sess" "user" "q" .nil .nil .nil Option.none] := by
  constructor
  · exact audit_log_bounded.1 _ _
  · exact audit_log_bounded.2 0 "a2" "sess" "user" "q" .nil .nil .nil Option.none
      ⟨List.replicate 10000 ⟨"a0", 0, "decision_made", "user", "sess", .dict .nil⟩, [], [], []⟩
      (by rw [List.length_replicate]; rfl)
      (by
        intro e he
        rw [List.eq_of_mem_replicate he]
        decide)

mutual
/-- The sanitizer output satisfies the structural redaction invariant, for
dictionary values. -/
theorem sanitized_safe_value : ∀ v, sanitized_val (safe_value v) = true
  | .s _ => rfl
  | .i _ => rfl
  | .f _ => rfl
  | .b _ => rfl
  | .none => rfl
  | .other _ => rfl
  | .dict es => by
    simp only [safe_value, sanitized_val]
    exact sanitized_safe_obj es
  | .list xs => by
    simp only [safe_value, sanitized_val]
    exact sanitized_safe_arr xs

/-- The sanitizer output satisfies the structural redaction invariant, for
dictionary entry lists. -/
theorem sanitized_safe_obj : ∀ es, sanitized_obj (safe_obj es) = true
  | .nil => rfl
  | .cons k v rest => by
    by_cases hk : py_lower k ∈ sensitive_fields
    · simp [safe_obj, sanitized_obj, hk, sanitized_safe_obj rest, redacted, sanitized_val]
    · simp [safe_obj, sanitized_obj, hk, sanitized_safe_obj rest, sanitized_safe_value v]

/-- The sanitizer output satisfies the structural redaction invariant, for
lists. -/
theorem sanitized_safe_arr : ∀ xs, sanitized_arr (safe_arr xs) = true
  | .nil => rfl
  | .cons item rest => by
    simp [safe_arr, sanitized_arr, sanitized_safe_arr rest, sanitized_safe_item item]

/-- The sanitizer output satisfies the structural redaction invariant, for
list items. -/
theorem sanitized_safe_item : ∀ v, sanitized_val (safe_item v) = true
  | .s _ => rfl
  | .i _ => rfl
  | .f _ => rfl
  | .b _ => rfl
  | .none => rfl
  | .other _ => rfl
  | .dict es => by
    simp only [safe_item, sanitized_val]
    exact sanitized_safe_obj es
  | .list _ => rfl
end

mutual
/-- Sanitisation is unaffected by the values stored under sensitive keys,
for dictionary values without list-in-list nesting. -/
theorem safe_value_sens_eq (v w : JVal) (hs : sens_eq_val v w = true)
    (hnl : no_ll_val v = true) : safe_value v = safe_value w :=
  match v, w, hs, hnl with
  | .s _, w, h, _ => by rw [eq_of_beq (show (JVal.s _ == w) = true from h)]
  | .i _, w, h, _ => by rw [eq_of_beq (show (JVal.i _ == w) = true from h)]
  | .f _, w, h, _ => by rw [eq_of_beq (show (JVal.f _ == w) = true from h)]
  | .b _, w, h, _ => by rw [eq_of_beq (show (JVal.b _ == w) = true from h)]
  | .none, w, h, _ => by rw [eq_of_beq (show (JVal.none == w) = true from h)]
  | .other _, w, h, _ => by rw [eq_of_beq (show (JVal.other _ == w) = true from h)]
  | .dict a, w, h, hn => by
    cases w
    case dict b => exact congrArg JVal.dict (safe_obj_sens_eq a b h
      (by simpa [no_ll_val] using hn))
    all_goals exact absurd (eq_of_beq h) (by simp)
  | .list a, w, h, hn => by
    cases w
    case list b => exact congrArg JVal.list (safe_arr_sens_eq a b h
      (by simpa [no_ll_val] using hn))
    all_goals exact absurd (eq_of_beq h) (by simp)
termination_by structural v

/-- Sanitisation is unaffected by the values stored under sensitive keys,
for dictionary entry lists without list-in-list nesting. -/
theorem safe_obj_sens_eq (a b : JObj) (hs : sens_eq_obj a b = true)
    (hnl : no_ll_obj a = true) : safe_obj a = safe_obj b :=
  match a, b, hs, hnl with
  | .nil, .nil, _, _ => rfl
  | .nil, .cons _ _ _, h, _ => by simp [sens_eq_obj] at h
  | .cons _ _ _, .nil, h, _ => by simp [sens_eq_obj] at h
  | .cons k v r, .cons k2 v2 r2, h, hn => by
    simp only [sens_eq_obj, Bool.and_eq_true, beq_iff_eq, Bool.or_eq_true] at h
    obtain ⟨⟨hk, hv⟩, hr⟩ := h
    simp only [no_ll_obj, Bool.and_eq_true] at hn
    obtain ⟨hnv, hnr⟩ := hn
    subst hk
    simp only [safe_obj]
    rw [safe_obj_sens_eq r r2 hr hnr]
    by_cases hks : py_lower k ∈ sensitive_fields
    · simp [hks]
    · rcases hv with hv | hv
      · exact absurd (by simpa using hv) hks
      · simp [hks, safe_value_sens_eq v v2 hv hnv]
termination_by structural a

/-- Sanitisation is unaffected by the values stored under sensitive keys,
for lists without list-in-list nesting. -/
theorem safe_arr_sens_eq (a b : JArr) (hs : sens_eq_arr a b = true)
    (hnl : no_ll_items a = true) : safe_arr a = safe_arr b :=
  match a, b, hs, hnl with
  | .nil, .nil, _, _ => rfl
  | .nil, .cons _ _, h, _ => by simp [sens_eq_arr] at h
  | .cons _ _, .nil, h, _ => by simp [sens_eq_arr] at h
  | .cons v r, .cons v2 r2, h, hn => by
    simp only [sens_eq_arr, Bool.and_eq_true] at h
    obtain ⟨hv, hr⟩ := h
    simp only [no_ll_items, Bool.and_eq_true] at hn
    obtain ⟨hnv, hnr⟩ := hn
    simp only [safe_arr]
    rw [safe_arr_sens_eq r r2 hr hnr, safe_item_sens_eq v v2 hv hnv]
termination_by structural a

/-- Sanitisation is unaffected by the values stored under sensitive keys,
for non-list list items without list-in-list nesting. -/
theorem safe_item_sens_eq (v w : JVal) (hs : sens_eq_val v w = true)
    (hnl : no_ll_item v = true) : safe_item v = safe_item w :=
  match v, w, hs, hnl with
  | .s _, w, h, _ => by rw [eq_of_beq (show (JVal.s _ == w) = true from h)]
  | .i _, w, h, _ => by rw [eq_of_beq (show (JVal.i _ == w) = true from h)]
  | .f _, w, h, _ => by rw [eq_of_beq (show (JVal.f _ == w) = true from h)]
  | .b _, w, h, _ => by rw [eq_of_beq (show (JVal.b _ == w) = true from h)]
  | .none, w, h, _ => by rw [eq_of_beq (show (JVal.none == w) = true from h)]
  | .other _, w, h, _ => by rw [eq_of_beq (show (JVal.other _ == w) = true from h)]
  | .dict a, w, h, hn => by
    cases w
    case dict b => exact congrArg JVal.dict (safe_obj_sens_eq a b h (by simpa [no_ll_item, no_ll_val] using hn))
    all_goals exact absurd (eq_of_beq h) (by simp)
  | .list _, _, _, hn => by simp [no_ll_item] at hn
termination_by structural v
end

/-- C4, counterexample.  A dictionary nested inside a list inside a list is
flattened by `str()`, so the raw value of its sensitive key survives in the
stored entry, and two payloads differing only in that value produce
different sanitised entries. -/
theorem create_safe_dict_nested_list_leak :
    create_safe_dict (.dict (JObj.ofList [("a", .list (JArr.ofList [.list (JArr.ofList
        [.dict (JObj.ofList [("passwords", .s "secret123")])])]))])) =
      .dict (JObj.ofList [("a", .list (JArr.ofList
        [.s "[\x7b\x27passwords\x27: \x27secret123\x27\x7d]"]))]) ∧
    sens_eq_val
      (.dict (JObj.ofList [("a", .list (JArr.ofList [.list (JArr.ofList
        [.dict (JObj.ofList [("passwords", .s "secret123")])])]))]))
      (.dict (JObj.ofList [("a", .list (JArr.ofList [.list (JArr.ofList
        [.dict (JObj.ofList [("passwords", .s "hunter2")])])]))])) = true ∧
    create_safe_dict (.dict (JObj.ofList [("a", .list (JArr.ofList [.list (JArr.ofList
        [.dict (JObj.ofList [("passwords", .s "secret123")])])]))])) ≠
      create_safe_dict (.dict (JObj.ofList [("a", .list (JArr.ofList [.list (JArr.ofList
        [.dict (JObj.ofList [("passwords", .s "hunter2")])])]))])) := by
  refine ⟨by decide, by decide, by decide⟩

/-- C4, amended.  Every dictionary key that remains a structural dictionary
key in the sanitised entry is redacted when its lower-cased name is a
sensitive field, at any nesting depth through dictionaries and single list
levels; and for payloads in which no list occurs directly inside another
list, two writes differing only in the values of sensitive keys produce
identical sanitised entries (and identical stored decision entries).  A
dictionary reached through a list nested directly inside a list is instead
stringified, which may retain raw sensitive values. -/
theorem create_safe_dict_redaction (v w : JVal) (hs : sens_eq_val v w = true)
    (hn : no_ll_val v = true) :
    sanitized_val (create_safe_dict v) = true ∧
    create_safe_dict v = create_safe_dict w ∧
    (∀ (now : Int) (aid sid uid q : String) (d d2 qc rr : JObj) (cv : Option JObj),
      sens_eq_obj d d2 = true → no_ll_obj d = true →
      decision_entry now aid sid uid q d qc rr cv =
        decision_entry now aid sid uid q d2 qc rr cv) := by
  refine ⟨?_, ?_, ?_⟩
  · cases v
    case dict es => simpa [create_safe_dict, sanitized_val] using sanitized_safe_obj es
    case list xs => simpa [create_safe_dict, sanitized_val] using sanitized_safe_arr xs
    all_goals rfl
  · cases v
    case dict a =>
      cases w
      case dict b => exact congrArg JVal.dict (safe_obj_sens_eq a b hs
        (by simpa [no_ll_val] using hn))
      all_goals exact absurd (eq_of_beq hs) (by simp)
    case list a =>
      cases w
      case list b => exact congrArg JVal.list (safe_arr_sens_eq a b hs
        (by simpa [no_ll_val] using hn))
      all_goals exact absurd (eq_of_beq hs) (by simp)
    all_goals exact congrArg create_safe_dict (eq_of_beq hs)
  · intro now aid sid uid q d d2 qc rr cv hd hnd
    unfold decision_entry
    rw [safe_obj_sens_eq d d2 hd hnd]

/-- C4, witness: two flat payloads differing only in the `passwords` value
sanitise to the same redacted entry. -/
theorem create_safe_dict_redaction_witness :
    sanitized_val (create_safe_dict (.dict (JObj.ofList
      [("passwords", .s "a"), ("x", .i 1)]))) = true ∧
    create_safe_dict (.dict (JObj.ofList [("passwords", .s "a"), ("x", .i 1)])) =
      create_safe_dict (.dict (JObj.ofList [("passwords", .s "b"), ("x", .i 1)])) := by
  have h := create_safe_dict_redaction
    (.dict (JObj.ofList [("passwords", .s "a"), ("x", .i 1)]))
    (.dict (JObj.ofList [("passwords", .s "b"), ("x", .i 1)]))
    (by decide) (by simp [no_ll_val, no_ll_obj, no_ll_item, JObj.ofList])
  exact ⟨h.1, h.2.1⟩

/-- Lookup after Python dictionary assignment finds the assigned value. -/
theorem dict_get_dict_set {κ ε : Type} [DecidableEq κ] (k : κ) (v : ε)
    (l : List (κ × ε)) : dict_get k (dict_set k v l) = some v := by
  induction l with
  | nil => simp [dict_set, dict_get]
  | cons p rest ih =>
    obtain ⟨k2, v2⟩ := p
    by_cases h : k = k2 <;> simp [dict_set, dict_get, h, ih]

/-- Filtering keeps the first binding of a key when the predicate holds of
it. -/
theorem dict_get_filter_some {κ ε : Type} [DecidableEq κ] (k : κ) (e : ε)
    (p : κ × ε → Bool) (l : List (κ × ε)) (hget : dict_get k l = some e)
    (hp : p (k, e) = true) : dict_get k (l.filter p) = some e := by
  induction l with
  | nil => cases hget
  | cons q rest ih =>
    obtain ⟨k2, v2⟩ := q
    by_cases h : k = k2
    · subst h
      rw [dict_get, if_pos rfl, Option.some_inj] at hget
      subst hget
      rw [List.filter_cons, if_pos hp, dict_get, if_pos rfl]
    · rw [dict_get, if_neg h] at hget
      rw [List.filter_cons]
      by_cases hq : p (k2, v2) = true
      · rw [if_pos hq, dict_get, if_neg h]
        exact ih hget
      · rw [if_neg hq]
        exact ih hget

/-- A key absent from the key list is not found. -/
theorem dict_get_none_of_not_mem_keys {κ ε : Type} [DecidableEq κ] (k : κ)
    (l : List (κ × ε)) (h : k ∉ l.map Prod.fst) : dict_get k l = Option.none := by
  induction l with
  | nil => rfl
  | cons q rest ih =>
    obtain ⟨k2, v2⟩ := q
    simp only [List.map_cons, List.mem_cons, not_or] at h
    rw [dict_get, if_neg h.1]
    exact ih h.2

/-- When keys are unique, filtering out the binding of a key makes the key
unfindable. -/
theorem dict_get_filter_none {κ ε : Type} [DecidableEq κ] (k : κ) (e : ε)
    (p : κ × ε → Bool) (l : List (κ × ε)) (hnd : (l.map Prod.fst).Nodup)
    (hget : dict_get k l = some e) (hp : p (k, e) = false) :
    dict_get k (l.filter p) = Option.none := by
  induction l with
  | nil => cases hget
  | cons q rest ih =>
    obtain ⟨k2, v2⟩ := q
    simp only [List.map_cons, List.nodup_cons] at hnd
    by_cases h : k = k2
    · subst h
      rw [dict_get, if_pos rfl, Option.some_inj] at hget
      subst hget
      rw [List.filter_cons, if_neg (by simp [hp])]
      apply dict_get_none_of_not_mem_keys
      intro hmem
      exact hnd.1 (by
        rcases List.mem_map.1 hmem with ⟨q, hq, rfl⟩
        exact List.mem_map.2 ⟨q, List.mem_of_mem_filter hq, rfl⟩)
    · rw [dict_get, if_neg h] at hget
      rw [List.filter_cons]
      by_cases hq : p (k2, v2) = true
      · rw [if_pos hq, dict_get, if_neg h]
        exact ih hnd.2 hget
      · rw [if_neg hq]
        exact ih hnd.2 hget

set_option maxRecDepth 100000 in
/-- C8, counterexample.  A put that lands on an over-full category while the
periodic cleanup is due can evict the entry it has just stored (the fresh
entry has access count 0 and sorts first), so an immediate get within the
TTL misses.  The state arises from 1001 caches each read once during the
first cleanup interval. -/
theorem cache_get_after_put_eviction_counterexample :
    (cache_get 300 query_cache_ttl 2000
        (cache_put 300 query_cache_ttl 2000 (42 : Nat)
          ⟨(List.range 1001).map (fun i => (i, ⟨0, 0, 1⟩)), 0⟩)).1 = Option.none ∧
      (300 : Int) - 300 < query_cache_ttl := by
  constructor
  · decide
  · decide


/-- C8, amended.  Provided the put does not overflow the category past
`max_cache_size` (so that the size-limit eviction cannot remove the fresh
entry), a get after a put returns exactly the stored value while the
elapsed time is within the category TTL, and misses once the TTL has
elapsed. -/
theorem cache_get_after_put {κ α : Type} [DecidableEq κ] (s : CacheState κ α)
    (k : κ) (v : α) (t0 t ttl : Int) (httl : 0 < ttl)
    (hsize : (dict_set k (⟨v, t0, 0⟩ : CacheEntry α) s.entries).length ≤ max_cache_size) :
    (t - t0 < ttl → (cache_get t ttl k (cache_put t0 ttl k v s)).1 = some v) ∧
    (ttl ≤ t - t0 → (cache_get t ttl k (cache_put t0 ttl k v s)).1 = Option.none) := by
  have hput : dict_get k (cache_put t0 ttl k v s).entries =
      some (⟨v, t0, 0⟩ : CacheEntry α) := by
    unfold cache_put cleanup_cache_if_needed
    by_cases hcl : t0 - s.last_cleanup < cleanup_interval
    · rw [if_pos hcl]
      exact dict_get_dict_set k _ s.entries
    · rw [if_neg hcl]
      show dict_get k (enforce_cache_size_limits
        (cleanup_expired_entries t0 ttl (dict_set k ⟨v, t0, 0⟩ s.entries))) = _
      have hkeep : dict_get k (cleanup_expired_entries t0 ttl
          (dict_set k ⟨v, t0, 0⟩ s.entries)) = some ⟨v, t0, 0⟩ := by
        apply dict_get_filter_some
        · exact dict_get_dict_set k _ s.entries
        · simp only [is_cache_entry_valid]
          rw [decide_eq_true_eq]
          omega
      rw [enforce_cache_size_limits, if_neg ?_]
      · exact hkeep
      · have hlen := List.length_filter_le
          (fun p => is_cache_entry_valid t0 ttl p.2) (dict_set k ⟨v, t0, 0⟩ s.entries)
        simp only [cleanup_expired_entries, not_lt]
        omega
  constructor
  · intro hin
    have hval : is_cache_entry_valid t ttl (⟨v, t0, 0⟩ : CacheEntry α) = true := by
      simp only [is_cache_entry_valid]
      rw [decide_eq_true_eq]
      omega
    simp [cache_get, hput, hval]
  · intro hout
    have hval : is_cache_entry_valid t ttl (⟨v, t0, 0⟩ : CacheEntry α) = false := by
      simp only [is_cache_entry_valid, decide_eq_false_iff_not]
      omega
    simp [cache_get, hput, hval]

/-- C8, witness: on a small cache, a get after a put returns the stored
value inside the TTL and misses after it. -/
theorem cache_get_after_put_witness :
    ((cache_get 10 query_cache_ttl 1
        (cache_put 0 query_cache_ttl 1 (7 : Nat)
          ⟨[((2 : Nat), ⟨5, 0, 3⟩)], 0⟩)).1 = some 7) ∧
    ((cache_get 1800 query_cache_ttl 1
        (cache_put 0 query_cache_ttl 1 (7 : Nat)
          ⟨[((2 : Nat), ⟨5, 0, 3⟩)], 0⟩)).1 = Option.none) :=
  ⟨(cache_get_after_put ⟨[((2 : Nat), ⟨5, 0, 3⟩)], 0⟩ 1 7 0 10 query_cache_ttl
      (by decide) (by decide)).1 (by decide),
   (cache_get_after_put ⟨[((2 : Nat), ⟨5, 0, 3⟩)], 0⟩ 1 7 0 1800 query_cache_ttl
      (by decide) (by decide)).2 (by decide)⟩

/-- C9, counterexample.  A lookup of an expired entry returns a miss but
leaves the stale entry in the category store: no removal happens at lookup
time. -/
theorem cache_get_expired_no_removal_counterexample :
    cache_get 2000 query_cache_ttl 0
        ⟨[((0 : Nat), (⟨(5 : Nat), 0, 0⟩ : CacheEntry Nat))], 0⟩ =
      (Option.none, ⟨[((0 : Nat), (⟨(5 : Nat), 0, 0⟩ : CacheEntry Nat))], 0⟩) ∧
    dict_get 0 (cache_get 2000 query_cache_ttl 0
        ⟨[((0 : Nat), (⟨(5 : Nat), 0, 0⟩ : CacheEntry Nat))], 0⟩).2.entries =
      some ⟨5, 0, 0⟩ ∧
    is_cache_entry_valid 2000 query_cache_ttl (⟨(5 : Nat), 0, 0⟩ : CacheEntry Nat) =
      false := by
  refine ⟨by decide, by decide, by decide⟩

/-- C9, amended.  A lookup of an entry whose TTL has expired returns a miss
and leaves the category store untouched; the stale entry is removed only by
the sweep `_cleanup_expired_entries`, which (on a store with unique keys)
makes the expired key unfindable. -/
theorem cache_get_expired_behaviour {κ α : Type} [DecidableEq κ]
    (s : CacheState κ α) (k : κ) (now ttl : Int) (e : CacheEntry α)
    (hget : dict_get k s.entries = some e)
    (hexp : is_cache_entry_valid now ttl e = false) :
    cache_get now ttl k s = (Option.none, s) ∧
    ((s.entries.map Prod.fst).Nodup →
      dict_get k (cleanup_expired_entries now ttl s.entries) = Option.none) := by
  constructor
  · simp [cache_get, hget, hexp]
  · intro hnd
    exact dict_get_filter_none k e _ s.entries hnd hget hexp

/-- C9, witness for the amended behaviour at a concrete expired entry. -/
theorem cache_get_expired_behaviour_witness :
    cache_get 2000 query_cache_ttl 0
        ⟨[((0 : Nat), (⟨(5 : Nat), 0, 0⟩ : CacheEntry Nat))], 0⟩ =
      (Option.none, ⟨[((0 : Nat), (⟨(5 : Nat), 0, 0⟩ : CacheEntry Nat))], 0⟩) ∧
    dict_get 0 (cleanup_expired_entries 2000 query_cache_ttl
        [((0 : Nat), (⟨(5 : Nat), 0, 0⟩ : CacheEntry Nat))]) = Option.none := by
  have h := cache_get_expired_behaviour
    ⟨[((0 : Nat), (⟨(5 : Nat), 0, 0⟩ : CacheEntry Nat))], 0⟩ 0 2000 query_cache_ttl
    ⟨5, 0, 0⟩ (by decide) (by decide)
  exact ⟨h.1, h.2 (by decide)⟩

/-- C10, counterexample.  Immediately after an overwriting put the stored
entry does not rank lowest in the eviction order: an older entry that also
has access count 0 ranks strictly lower. -/
theorem cache_put_rank_counterexample :
    (cache_put 1 query_cache_ttl 1 (9 : Nat)
        ⟨[((0 : Nat), ⟨7, 0, 0⟩), ((1 : Nat), ⟨8, 0, 5⟩)], 0⟩).entries =
      [((0 : Nat), (⟨7, 0, 0⟩ : CacheEntry Nat)), ((1 : Nat), ⟨9, 1, 0⟩)] ∧
    evict_le ((1 : Nat), (⟨9, 1, 0⟩ : CacheEntry Nat)) (0, ⟨7, 0, 0⟩) = false ∧
    evict_le ((0 : Nat), (⟨7, 0, 0⟩ : CacheEntry Nat)) (1, ⟨9, 1, 0⟩) = true := by
  refine ⟨by decide, by decide, by decide⟩

/-- C10, amended.  Every cache put stores its entry with access count 0,
also when overwriting a key whose entry had a higher count; consequently
the fresh entry ranks strictly below every entry that has been read at
least once in the `(access_count, timestamp)` eviction order, and ties with
other never-read entries, among which older timestamps rank lower. -/
theorem cache_put_resets_access_count {κ α : Type} [DecidableEq κ]
    (entries : List (κ × CacheEntry α)) (k : κ) (v : α) (now : Int) :
    dict_get k (dict_set k (⟨v, now, 0⟩ : CacheEntry α) entries) =
      some ⟨v, now, 0⟩ ∧
    (∀ (k2 : κ) (e2 : CacheEntry α), 1 ≤ e2.access_count →
      evict_le (k, (⟨v, now, 0⟩ : CacheEntry α)) (k2, e2) = true ∧
      evict_le (k2, e2) (k, (⟨v, now, 0⟩ : CacheEntry α)) = false) ∧
    (∀ (k2 : κ) (e2 : CacheEntry α), e2.access_count = 0 → e2.timestamp ≤ now →
      evict_le (k2, e2) (k, (⟨v, now, 0⟩ : CacheEntry α)) = true) := by
  refine ⟨dict_get_dict_set k _ entries, ?_, ?_⟩
  · intro k2 e2 h
    constructor
    · simp only [evict_le, decide_eq_true_eq]
      left
      simpa using h
    · simp only [evict_le, decide_eq_false_iff_not]
      omega
  · intro k2 e2 h ht
    simp only [evict_le, decide_eq_true_eq]
    simp [h]
    omega

/-- C10, witness: overwriting a key whose entry had access count 5 stores
access count 0, ranking below a read entry and above none of the stale
unread ones. -/
theorem cache_put_resets_access_count_witness :
    dict_get 1 (dict_set 1 (⟨9, 1, 0⟩ : CacheEntry Nat)
        [((0 : Nat), ⟨7, 0, 0⟩), ((1 : Nat), ⟨8, 0, 5⟩)]) = some ⟨9, 1, 0⟩ ∧
    evict_le ((1 : Nat), (⟨9, 1, 0⟩ : CacheEntry Nat)) (1, ⟨8, 0, 5⟩) = true ∧
    evict_le ((0 : Nat), (⟨7, 0, 0⟩ : CacheEntry Nat)) (1, ⟨9, 1, 0⟩) = true := by
  have h := cache_put_resets_access_count
    [((0 : Nat), (⟨7, 0, 0⟩ : CacheEntry Nat)), ((1 : Nat), ⟨8, 0, 5⟩)] 1 (9 : Nat) 1
  exact ⟨h.1, (h.2.1 1 ⟨8, 0, 5⟩ (by decide)).1, h.2.2 0 ⟨7, 0, 0⟩ (by decide) (by decide)⟩

end RagDoc